import Mathlib

/-!
Verification of `src/Api/notion-movie-fill.ts` (Notionmovie).

The handler and its helpers are embedded shallowly: strings are `List Char`
(one element per UTF-16 code unit; all characters involved lie in the basic
multilingual plane, where JavaScript code units and Unicode scalar values
coincide), fallible steps return `Except`, and the three outbound HTTP calls
(Notion page retrieve, OMDb fetch, Notion page update) are passed in as
oracle functions so that the handler itself is a pure function of its inputs.
Regex-replace loops are written with an explicit fuel argument equal to the
input length so that every definition is structurally recursive and
kernel-evaluable; each step of those loops consumes at least one character,
so the fuel is never exhausted on the wrapper's call.
-/

set_option maxRecDepth 20000

namespace NotionMovie

/-- Whitespace class of the JavaScript regular-expression escape `\s`:
space, tab, line feed, vertical tab, form feed, carriage return, NBSP,
Ogham space mark, the U+2000..U+200A range, line separator, paragraph
separator, narrow NBSP, medium mathematical space, ideographic space
and the byte-order mark. -/
def isWs (c : Char) : Bool :=
  c = ' ' || c = '\t' || c = '\n' || c.toNat = 0x0b || c.toNat = 0x0c || c = '\r' ||
  c.toNat = 0xa0 || c.toNat = 0x1680 || (0x2000 ≤ c.toNat && c.toNat ≤ 0x200a) ||
  c.toNat = 0x2028 || c.toNat = 0x2029 || c.toNat = 0x202f || c.toNat = 0x205f ||
  c.toNat = 0x3000 || c.toNat = 0xfeff

/-- `s.replace(/\s+/g, " ")`: each maximal run of whitespace becomes a single
space.  Fuel-indexed; each step consumes at least one character. -/
def collapseWsFuel : Nat → List Char → List Char
  | _, [] => []
  | 0, l => l
  | fuel + 1, c :: rest =>
    if isWs c then ' ' :: collapseWsFuel fuel (rest.dropWhile isWs)
    else c :: collapseWsFuel fuel rest

def collapseWs (l : List Char) : List Char := collapseWsFuel l.length l

/-- The sentence-terminator class `[.!?]` of the source's second replace. -/
def isTerm (c : Char) : Bool := c = '.' || c = '!' || c = '?'

/-- `s.replace(/[.!?]\s+/g, "하다. ")`: a terminator followed by a maximal
whitespace run is rewritten to the marker plus period plus space; a
terminator not followed by whitespace is kept.  Fuel-indexed as above. -/
def repTermWsFuel : Nat → List Char → List Char
  | _, [] => []
  | 0, l => l
  | fuel + 1, c :: rest =>
    if isTerm c then
      match rest with
      | [] => [c]
      | d :: rest2 =>
        if isWs d then
          '하' :: '다' :: '.' :: ' ' :: repTermWsFuel fuel (rest2.dropWhile isWs)
        else c :: repTermWsFuel fuel rest
    else c :: repTermWsFuel fuel rest

def repTermWs (l : List Char) : List Char := repTermWsFuel l.length l

/-- `s.replace(/입니다/g, "하다")`: every (leftmost, non-overlapping)
occurrence of 입니다 becomes 하다. -/
def replaceIpnida : List Char → List Char
  | '입' :: '니' :: '다' :: rest => '하' :: '다' :: replaceIpnida rest
  | c :: rest => c :: replaceIpnida rest
  | [] => []

/-- The source's `cleaned`: the three chained replaces applied to the plot. -/
def cleanedOf (plot : List Char) : List Char :=
  replaceIpnida (repTermWs (collapseWs plot))

/-- The end-anchored test `/하다[.?!…]?$/.test(out)`: the string ends with
하다, optionally followed by exactly one of `.`, `?`, `!`, `…`. -/
def endsHada (l : List Char) : Bool :=
  ['하', '다'].isSuffixOf l || ['하', '다', '.'].isSuffixOf l ||
  ['하', '다', '?'].isSuffixOf l || ['하', '다', '!'].isSuffixOf l ||
  ['하', '다', '…'].isSuffixOf l

/-- The fixed sentence returned for an empty plot. -/
def insufficientMsg : List Char :=
  "작품 정보가 부족하여 간단 요약을 제공하지 못하다.".data

/-- `summarizeKorean` from the source: empty-plot fixed sentence; otherwise
clean, truncate to 356 characters plus `…` when the cleaned form exceeds
360 characters, then append `하다.` unless the ending test already passes. -/
def summarizeKorean (plot : List Char) : List Char :=
  if plot = [] then insufficientMsg
  else
    let cleaned := cleanedOf plot
    let out := if 360 < cleaned.length then cleaned.take 356 ++ ['…'] else cleaned
    if endsHada out then out else out ++ ('하' :: '다' :: '.' :: [])


/-- JavaScript truthiness-based `a || b` on strings: the empty string is
falsy, so it falls through to `b`. -/
def jsOrS (a b : List Char) : List Char := if a = [] then b else a

/-- `a || b` where `a` may be absent (`undefined`/`null` are falsy). -/
def jsOrOpt (a : Option (List Char)) (b : List Char) : List Char :=
  match a with
  | some s => jsOrS s b
  | none => b

/-- JavaScript `String.prototype.trim`: strip leading and trailing
whitespace. -/
def jsTrim (l : List Char) : List Char :=
  ((l.dropWhile isWs).reverse.dropWhile isWs).reverse

/-- JavaScript `Array.prototype.join(sep)`. -/
def joinJs (sep : List Char) : List (List Char) → List Char
  | [] => []
  | [x] => x
  | x :: y :: xs => x ++ sep ++ joinJs sep (y :: xs)

/-- `featuresFromData` from the source: a director clause when the director
is non-empty, a clause for the first up-to-3 genres when any genre exists,
then the fixed literal clause, joined with " / ". -/
def featuresFromData (director : List Char) (genres : List (List Char)) :
    List Char :=
  let base : List (List Char) :=
    (if director ≠ [] then ["연출: ".data ++ director] else []) ++
    (if genres ≠ [] then
      ["장르 결합: ".data ++ joinJs ", ".data (genres.take 3)] else []) ++
    ["리듬감 있는 전개".data]
  joinJs " / ".data base


/-- The raw JSON body returned by the OMDb provider; each field is `none`
when absent from the response. -/
structure OMDbJson where
  response : Option (List Char)
  error : Option (List Char)
  director : Option (List Char)
  plot : Option (List Char)
  genre : Option (List Char)
  released : Option (List Char)
  writer : Option (List Char)
  actors : Option (List Char)
deriving DecidableEq

/-- The structured metadata record built by `fetchFromOMDb`. -/
structure OMDbData where
  director : List Char
  plot : List Char
  genres : List (List Char)
  released : List Char
  writers : List Char
  actors : List Char
deriving DecidableEq

/-- `(json.Genre || "").split(",").map(g => g.trim()).filter(Boolean)`. -/
def splitGenres (genre : List Char) : List (List Char) :=
  ((genre.splitOn ',').map jsTrim).filter (· ≠ [])


/-- `fetchFromOMDb` from the source.  The environment's API key and the
network are passed in explicitly: `omdbKey` models `OMDB_API_KEY` (the empty
string standing for an unset variable, which is equally falsy in the
source's check) and `omdbFetch` models the HTTP GET of the provider URL,
mapping the requested title to the provider's decoded JSON body. -/
def fetchFromOMDb (omdbKey : List Char) (omdbFetch : List Char → OMDbJson)
    (title : List Char) : Except (List Char) OMDbData :=
  if omdbKey = [] then .error "OMDB_API_KEY 누락".data
  else if (omdbFetch title).response = some "False".data then
    .error (jsOrOpt (omdbFetch title).error "OMDb not found".data)
  else
    .ok { director := jsOrOpt (omdbFetch title).director []
          plot := jsOrOpt (omdbFetch title).plot []
          genres := splitGenres (jsOrOpt (omdbFetch title).genre [])
          released := jsOrOpt (omdbFetch title).released []
          writers := jsOrOpt (omdbFetch title).writer []
          actors := jsOrOpt (omdbFetch title).actors [] }

/-- A Notion page as this handler reads it: the `title` array of the page's
제목 property, each fragment being its `plain_text`; `none` when the
property or its `title` array is missing. -/
structure NotionPage where
  titleFragments : Option (List (List Char))
deriving DecidableEq

/-- `getTitle` from the source:
`prop?.title?.[0]?.plain_text || prop?.title?.map(t => t?.plain_text).join("") || ""`
then trimmed.  A missing property short-circuits both alternatives to the
empty string. -/
def getTitle (page : NotionPage) : List Char :=
  match page.titleFragments with
  | none => jsTrim []
  | some frags =>
    jsTrim (jsOrS (jsOrOpt frags.head? []) (jsOrS frags.flatten []))


/-- English three-letter month abbreviation, as produced by OMDb. -/
def monthOfName (m : List Char) : Option Nat :=
  if m = "Jan".data then some 1 else if m = "Feb".data then some 2
  else if m = "Mar".data then some 3 else if m = "Apr".data then some 4
  else if m = "May".data then some 5 else if m = "Jun".data then some 6
  else if m = "Jul".data then some 7 else if m = "Aug".data then some 8
  else if m = "Sep".data then some 9 else if m = "Oct".data then some 10
  else if m = "Nov".data then some 11 else if m = "Dec".data then some 12
  else none

/-- A non-empty all-digit string read as a natural number. -/
def digitsToNat (l : List Char) : Option Nat :=
  if l ≠ [] ∧ l.all (·.isDigit) then
    some (l.foldl (fun acc c => 10 * acc + (c.toNat - 48)) 0)
  else none

/-- Days of each Gregorian month. -/
def daysInMonth (year month : Nat) : Nat :=
  if month = 2 then
    if year % 4 = 0 ∧ (year % 100 ≠ 0 ∨ year % 400 = 0) then 29 else 28
  else if month = 4 ∨ month = 6 ∨ month = 9 ∨ month = 11 then 30
  else 31

/-- The JavaScript `new Date(string)` builtin, modelled restricted to the
shape this repository feeds it: OMDb's release format `"D Mon YYYY"` /
`"DD Mon YYYY"` with a calendar-valid day and a four-or-fewer-digit year,
on a host whose local timezone is UTC (the deployment target), where such a
string parses to local — hence UTC — midnight of that calendar day.  Any
string outside this shape is modelled as an invalid date (`none`);
out-of-range components, which the real builtin rolls over, are out of the
model's scope. -/
def jsDateParse (s : List Char) : Option (Nat × Nat × Nat) :=
  match s.splitOn ' ' with
  | [d, m, y] =>
    match digitsToNat d, monthOfName m, digitsToNat y with
    | some day, some mon, some year =>
      if 1 ≤ day ∧ day ≤ daysInMonth year mon ∧ 100 ≤ year ∧ year ≤ 9999 then
        some (year, mon, day)
      else none
    | _, _, _ => none
  | _ => none

/-- Two-digit zero-padded decimal field of an ISO timestamp. -/
def pad2 (n : Nat) : List Char :=
  [Nat.digitChar (n / 10 % 10), Nat.digitChar (n % 10)]

/-- Four-digit zero-padded decimal field of an ISO timestamp. -/
def pad4 (n : Nat) : List Char :=
  [Nat.digitChar (n / 1000 % 10), Nat.digitChar (n / 100 % 10),
   Nat.digitChar (n / 10 % 10), Nat.digitChar (n % 10)]

/-- `Date.prototype.toISOString` of the parsed value: UTC midnight of the
calendar day, rendered `YYYY-MM-DDT00:00:00.000Z`. -/
def jsToISOString (v : Nat × Nat × Nat) : List Char :=
  pad4 v.1 ++ '-' :: pad2 v.2.1 ++ '-' :: pad2 v.2.2 ++ "T00:00:00.000Z".data

/-- `parseReleasedToISO` from the source: the empty string is falsy and maps
to `null`; otherwise parse with `new Date`, map an invalid date to `null`,
and keep the first 10 characters of the ISO timestamp. -/
def parseReleasedToISO (released : List Char) : Option (List Char) :=
  if released = [] then none
  else
    match jsDateParse released with
    | none => none
    | some v => some ((jsToISOString v).take 10)


/-- A Notion property-value instruction as placed in the source's `props`
object.  `undefinedVal` is the explicit `undefined` produced by
`asDate(null)`: the key is present in the object (and in `Object.keys`)
but carries no value-change instruction. -/
inductive PropValue where
  | richText (content : List Char)
  | multiSelect (names : List (List Char))
  | date (start : List Char)
  | undefinedVal
  | statusVal (name : List Char)
deriving DecidableEq

/-- `asRichText` from the source (the single text block's content). -/
def asRichText (content : List Char) : PropValue := .richText content

/-- `asMultiSelect` from the source (the ordered option names). -/
def asMultiSelect (names : List (List Char)) : PropValue := .multiSelect names

/-- `asDate` from the source: `iso ? { date: { start: iso } } : undefined`. -/
def asDate (iso : Option (List Char)) : PropValue :=
  match iso with
  | some s => .date s
  | none => .undefinedVal

/-- The source's `props` object, in insertion order.  The 상태 entry is
assigned inside `try { ... } catch {}`, but a plain object-literal
assignment cannot throw, so the entry is always present. -/
def buildProps (data : OMDbData) (summary features : List Char)
    (iso : Option (List Char)) : List (List Char × PropValue) :=
  [("감독".data, asRichText data.director),
   ("줄거리".data, asRichText summary),
   ("특징".data, asRichText features),
   ("장르".data, asMultiSelect data.genres),
   ("개봉일".data, asDate iso),
   ("제작/스태프".data,
     asRichText ("각본: ".data ++ data.writers ++ " / 출연: ".data ++ data.actors)),
   ("상태".data, PropValue.statusVal "완료".data)]

/-- The error message thrown when no page identifier was supplied. -/
def msgMissingPageId : List Char :=
  "page_id 누락 (JSON body.page_id 또는 X-Notion-Page-Id 헤더 사용)".data

/-- The error message thrown when the page's title is empty after trimming.
The source wraps 제목 in quote characters, written here by code point. -/
def msgEmptyTitle : List Char :=
  "노션 페이지의 ".data ++ Char.ofNat 39 :: "제목".data ++ Char.ofNat 39 ::
  " 속성이 비어 있음".data

/-- The try-block of the handler.  `body` is the result of `req.json()`
(`Except.error` when the body is not valid JSON, otherwise the optional
`page_id` field), `header` the optional `X-Notion-Page-Id` header, and
`retrieve`, `omdbFetch`, `update` are the three outbound calls. -/
def handlerCore (body : Except Unit (Option (List Char)))
    (header : Option (List Char))
    (retrieve : List Char → Except (List Char) NotionPage)
    (omdbKey : List Char) (omdbFetch : List Char → OMDbJson)
    (update : List Char → List (List Char × PropValue) → Except (List Char) Unit) :
    Except (List Char) (List Char × List (List Char)) :=
  let bodyPid : Option (List Char) :=
    match body with
    | .error _ => none
    | .ok f => f
  let pageId := jsOrOpt bodyPid (jsTrim (header.getD []))
  if pageId = [] then .error msgMissingPageId
  else
    match retrieve pageId with
    | .error e => .error e
    | .ok page =>
      let title := getTitle page
      if title = [] then .error msgEmptyTitle
      else
        match fetchFromOMDb omdbKey omdbFetch title with
        | .error e => .error e
        | .ok data =>
          let props := buildProps data (summarizeKorean data.plot)
            (featuresFromData data.director data.genres)
            (parseReleasedToISO data.released)
          match update pageId props with
          | .error e => .error e
          | .ok _ => .ok (title, props.map Prod.fst)

/-- The HTTP response: the success body carries `title` and `updated`, the
failure body carries `error`. -/
structure HttpResponse where
  status : Nat
  ok : Bool
  error : Option (List Char)
  title : Option (List Char)
  updated : Option (List (List Char))
deriving DecidableEq

/-- `handler` from the source: run the try-block and render either the
200 success response or the catch-all 500 failure response. -/
def handler (body : Except Unit (Option (List Char)))
    (header : Option (List Char))
    (retrieve : List Char → Except (List Char) NotionPage)
    (omdbKey : List Char) (omdbFetch : List Char → OMDbJson)
    (update : List Char → List (List Char × PropValue) → Except (List Char) Unit) :
    HttpResponse :=
  match handlerCore body header retrieve omdbKey omdbFetch update with
  | .ok (title, updated) =>
    { status := 200, ok := true, error := none,
      title := some title, updated := some updated }
  | .error e =>
    { status := 500, ok := false, error := some e,
      title := none, updated := none }


/-- The clause list exactly as the claim describes it: a director clause
only if the director is non-empty, a clause for the first up-to-3 genres
joined by comma-space only if at least one genre exists, and one fixed
literal clause always appended. -/
def claimClauses (director : List Char) (genres : List (List Char)) :
    List (List Char) :=
  (if director ≠ [] then ["연출: ".data ++ director] else []) ++
  (if genres ≠ [] then
    ["장르 결합: ".data ++ joinJs ", ".data (genres.take 3)] else []) ++
  ["리듬감 있는 전개".data]

/-- Cleaning with only the two spec-described steps — whitespace-run
collapse and terminator rewrite — for comparison with the source's
`cleaned`, which additionally replaces 입니다. -/
def cleanedTwoStepOf (plot : List Char) : List Char :=
  repTermWs (collapseWs plot)

/-- The summarizer as the spec's two cleaning steps alone would define it:
identical to `summarizeKorean`, but without the 입니다 replacement. -/
def summarizeTwoStep (plot : List Char) : List Char :=
  if plot = [] then insufficientMsg
  else
    let cleaned := cleanedTwoStepOf plot
    let out := if 360 < cleaned.length then cleaned.take 356 ++ ['…'] else cleaned
    if endsHada out then out else out ++ ('하' :: '다' :: '.' :: [])

/-- 입니다 repeated 121 times: 363 characters before the substitution,
242 after it. -/
def ipnidaLong : List Char := (List.replicate 121 "입니다".data).flatten

/-- The fixed list of property names of the source's `props` object, in
insertion order. -/
def propNames : List (List Char) :=
  ["감독".data, "줄거리".data, "특징".data, "장르".data, "개봉일".data,
   "제작/스태프".data, "상태".data]

/-- A Notion read that always succeeds with a one-fragment title. -/
def retrieveOk (_ : List Char) : Except (List Char) NotionPage :=
  .ok ⟨some ["Die Hard".data]⟩

/-- An OMDb response for a found movie whose release date is unparsable. -/
def omdbFetchOk (_ : List Char) : OMDbJson :=
  { response := some "True".data
    error := none
    director := some "John McTiernan".data
    plot := some "A cop fights.".data
    genre := some "Action, Thriller".data
    released := some "xx".data
    writer := some "Jeb Stuart".data
    actors := some "Bruce Willis".data }

/-- An OMDb not-found response carrying the provider's own error message. -/
def omdbFetchNotFound (_ : List Char) : OMDbJson :=
  { response := some "False".data
    error := some "Movie not found!".data
    director := none, plot := none, genre := none
    released := none, writer := none, actors := none }

/-- A Notion update that always succeeds. -/
def updateOk (_ : List Char) (_ : List (List Char × PropValue)) :
    Except (List Char) Unit := .ok ()

/-! ## Helper lemmas -/

theorem endsHada_append_hada (x : List Char) :
    endsHada (x ++ ('하' :: '다' :: '.' :: [])) = true := by
  have h : (['하', '다', '.'] : List Char).isSuffixOf (x ++ ['하', '다', '.']) = true :=
    List.isSuffixOf_iff_suffix.mpr (List.suffix_append x _)
  simp only [endsHada, h, Bool.or_true, Bool.true_or]

/-! ## Claim C9 -/

/-- Claim C9: for the empty plot string, `summarizeKorean` returns exactly
the fixed insufficient-information sentence, with no other processing
applied. -/
theorem claim_C9_empty_plot :
    summarizeKorean [] =
      "작품 정보가 부족하여 간단 요약을 제공하지 못하다.".data := by decide

/-! ## Claim C7 -/

/-- Claim C7: for every input plot string, the summary ends with the marker
하다 optionally followed by exactly one terminator (`.`, `?`, `!`) or the
ellipsis character; when the intermediate result does not already end that
way, the marker plus a period is appended. -/
theorem claim_C7_summary_ending (plot : List Char) :
    endsHada (summarizeKorean plot) = true := by
  by_cases hp : plot = []
  · subst hp; decide
  · rw [summarizeKorean, if_neg hp]
    show endsHada
      (if endsHada (if 360 < (cleanedOf plot).length
            then (cleanedOf plot).take 356 ++ ['…'] else cleanedOf plot) = true
        then (if 360 < (cleanedOf plot).length
            then (cleanedOf plot).take 356 ++ ['…'] else cleanedOf plot)
        else (if 360 < (cleanedOf plot).length
            then (cleanedOf plot).take 356 ++ ['…'] else cleanedOf plot) ++
          ('하' :: '다' :: '.' :: [])) = true
    by_cases h : endsHada (if 360 < (cleanedOf plot).length
        then (cleanedOf plot).take 356 ++ ['…'] else cleanedOf plot) = true
    · rw [if_pos h]; exact h
    · rw [if_neg h]; exact endsHada_append_hada _

/-! ## Claim C1 -/

/-- Claim C1 counterexample: a plot of 361 letters `a` cleans to itself
(length 361 > 360), yet the summary's length is not 357 and it does not end
with the ellipsis — the final ending-correction step appends 하다. after
the truncation. -/
theorem claim_C1_counterexample :
    360 < (cleanedOf (List.replicate 361 'a')).length ∧
    ¬((summarizeKorean (List.replicate 361 'a')).length = 357 ∧
      (summarizeKorean (List.replicate 361 'a')).getLast? = some '…') := by
  constructor
  · decide
  · decide

/-- Claim C1 as amended: when the cleaned plot exceeds 360 characters, the
truncated form is the first 356 characters plus one ellipsis; the summary is
exactly that 357-character string ending in the ellipsis only when the
truncated form already passes the 하다-ending test, and otherwise it is that
string with 하다. appended — 360 characters ending in a period. -/
theorem claim_C1_amended (plot : List Char)
    (h : 360 < (cleanedOf plot).length) :
    if endsHada ((cleanedOf plot).take 356 ++ ['…']) = true
    then (summarizeKorean plot).length = 357 ∧
         (summarizeKorean plot).getLast? = some '…'
    else (summarizeKorean plot).length = 360 ∧
         (summarizeKorean plot).getLast? = some '.' := by
  have hp : plot ≠ [] := by
    intro hp
    subst hp
    revert h
    decide
  have hout : summarizeKorean plot =
      (if endsHada ((cleanedOf plot).take 356 ++ ['…']) = true
       then (cleanedOf plot).take 356 ++ ['…']
       else ((cleanedOf plot).take 356 ++ ['…']) ++ ('하' :: '다' :: '.' :: [])) := by
    rw [summarizeKorean, if_neg hp]
    show (if endsHada (if 360 < (cleanedOf plot).length
            then (cleanedOf plot).take 356 ++ ['…'] else cleanedOf plot) = true
          then (if 360 < (cleanedOf plot).length
            then (cleanedOf plot).take 356 ++ ['…'] else cleanedOf plot)
          else (if 360 < (cleanedOf plot).length
            then (cleanedOf plot).take 356 ++ ['…'] else cleanedOf plot) ++
            ('하' :: '다' :: '.' :: [])) = _
    rw [if_pos h]
  have hlen : ((cleanedOf plot).take 356).length = 356 := by
    rw [List.length_take]
    omega
  by_cases he : endsHada ((cleanedOf plot).take 356 ++ ['…']) = true
  · rw [if_pos he, hout, if_pos he]
    refine ⟨?_, List.getLast?_concat _⟩
    simp [hlen]
  · rw [if_neg he, hout, if_neg he]
    constructor
    · simp [hlen]
    · rw [show ((cleanedOf plot).take 356 ++ ['…']) ++ ('하' :: '다' :: '.' :: []) =
          (((cleanedOf plot).take 356 ++ ['…']) ++ ['하', '다']) ++ ['.'] by simp]
      exact List.getLast?_concat _

/-- Witness for the amended claim C1, at the 361-letter plot. -/
theorem claim_C1_amended_witness :
    (summarizeKorean (List.replicate 361 'a')).length = 360 ∧
    (summarizeKorean (List.replicate 361 'a')).getLast? = some '.' := by
  have h := claim_C1_amended (List.replicate 361 'a') (by decide)
  rw [if_neg (by decide)] at h
  exact h

/-! ## Claim C8 -/


theorem joinJs_suffix_last (sep y : List Char) :
    ∀ xs : List (List Char), y <:+ joinJs sep (xs ++ [y])
  | [] => List.suffix_rfl
  | [x] => by
    show y <:+ joinJs sep (x :: [y])
    simp only [joinJs]
    exact List.suffix_append _ _
  | x :: x2 :: xs => by
    have ih := joinJs_suffix_last sep y (x2 :: xs)
    show y <:+ joinJs sep (x :: x2 :: (xs ++ [y]))
    simp only [joinJs]
    exact ih.trans (List.suffix_append _ _)

/-- Claim C8: `featuresFromData` joins with " / " exactly the claim's
clauses in order; hence the result always has the fixed literal clause as a
suffix (in particular contains it), and for an empty director and empty
genre list it equals the fixed literal clause alone. -/
theorem claim_C8_features (director : List Char) (genres : List (List Char)) :
    featuresFromData director genres =
      joinJs " / ".data (claimClauses director genres) ∧
    "리듬감 있는 전개".data <:+ featuresFromData director genres ∧
    featuresFromData [] [] = "리듬감 있는 전개".data := by
  refine ⟨rfl, ?_, by decide⟩
  show "리듬감 있는 전개".data <:+ joinJs " / ".data (claimClauses director genres)
  rw [show claimClauses director genres =
      ((if director ≠ [] then ["연출: ".data ++ director] else []) ++
       (if genres ≠ [] then
         ["장르 결합: ".data ++ joinJs ", ".data (genres.take 3)] else [])) ++
      ["리듬감 있는 전개".data] by
    simp [claimClauses, List.append_assoc]]
  exact joinJs_suffix_last _ _ _

/-! ## Claim C10 -/




theorem replaceIpnida_head_da (l : List Char)
    (h : (replaceIpnida l).head? = some '다') : l.head? = some '다' := by
  rw [replaceIpnida.eq_def] at h
  split at h
  · simp at h
  · simpa using h
  · simp at h

theorem singleton_prefix_head {a : Char} {l : List Char}
    (h : [a] <+: l) : l.head? = some a := by
  rcases h with ⟨t, ht⟩
  subst ht
  rfl

theorem replaceIpnida_prefix_nida (l : List Char)
    (h : ['니', '다'] <+: replaceIpnida l) : ['니', '다'] <+: l := by
  rw [replaceIpnida.eq_def] at h
  split at h
  · rcases h with ⟨t, ht⟩
    simp at ht
  · next c rest _ =>
    rw [show (['니', '다'] : List Char) = '니' :: ['다'] from rfl,
        List.cons_prefix_cons] at h
    obtain ⟨hc, h2⟩ := h
    have hd : rest.head? = some '다' :=
      replaceIpnida_head_da rest (singleton_prefix_head h2)
    rcases rest with _ | ⟨d, rest2⟩
    · simp at hd
    · obtain rfl : d = '다' := by simpa using hd
      obtain rfl : c = '니' := hc.symm
      exact ⟨rest2, rfl⟩
  · simp at h

theorem replaceIpnida_no_pat_aux :
    ∀ n, ∀ l : List Char, l.length ≤ n →
      ¬ (['입', '니', '다'] <:+: replaceIpnida l) := by
  intro n
  induction n with
  | zero =>
    intro l hlen h
    interval_cases hl : l.length
    rw [List.length_eq_zero] at hl
    subst hl
    simp [replaceIpnida] at h
  | succ n ih =>
    intro l hlen h
    rw [replaceIpnida.eq_def] at h
    split at h
    · next rest =>
      rcases List.infix_cons_iff.mp h with hpre | h2
      · rcases hpre with ⟨t, ht⟩
        simp at ht
      · rcases List.infix_cons_iff.mp h2 with hpre | h3
        · rcases hpre with ⟨t, ht⟩
          simp at ht
        · exact ih rest (by simp at hlen; omega) h3
    · next c rest hne =>
      rcases List.infix_cons_iff.mp h with hpre | h2
      · rw [show (['입', '니', '다'] : List Char) = '입' :: ['니', '다'] from rfl,
            List.cons_prefix_cons] at hpre
        obtain ⟨hc, hnida⟩ := hpre
        rcases replaceIpnida_prefix_nida rest hnida with ⟨t, ht⟩
        exact hne t hc.symm ht.symm
      · exact ih rest (by simp at hlen; omega) h2
    · simp at h

theorem replaceIpnida_no_pat (l : List Char) :
    ¬ (['입', '니', '다'] <:+: replaceIpnida l) :=
  replaceIpnida_no_pat_aux l.length l le_rfl

/-- Claim C10: beyond the two spec-described cleaning steps,
`summarizeKorean` rewrites every occurrence of 입니다 to 하다 (none is left
in the rewritten text), the substitution feeds the 360-character length
check (a 363-character raw plot of repeated 입니다 shrinks to 242 characters
and is not truncated, while the two-step cleaning alone would truncate it),
and on a concrete 입니다 input the output differs from the two-step-only
summarizer. -/
theorem claim_C10_ipnida_rewrite :
    (∀ plot : List Char,
      cleanedOf plot = replaceIpnida (cleanedTwoStepOf plot)) ∧
    (∀ l : List Char, ¬ (['입', '니', '다'] <:+: replaceIpnida l)) ∧
    summarizeKorean "영화입니다".data ≠ summarizeTwoStep "영화입니다".data ∧
    (cleanedTwoStepOf ipnidaLong).length = 363 ∧
    (summarizeKorean ipnidaLong).length = 242 ∧
    ¬ '…' ∈ summarizeKorean ipnidaLong ∧
    '…' ∈ summarizeTwoStep ipnidaLong := by
  exact ⟨fun _ => rfl, replaceIpnida_no_pat, by decide, by decide, by decide,
    by decide, by decide⟩

/-! ## Claim C2 -/

theorem jsOrS_nil_right (a : List Char) : jsOrS a [] = a := by
  unfold jsOrS
  split
  · next h => exact h.symm
  · rfl

/-- Claim C2 counterexample: the fragment lists `["ab", "cd"]` and
`["abcd"]` concatenate to the same title string, yet `getTitle` returns
different results for them — the first fragment alone is taken whenever it
is non-empty. -/
theorem claim_C2_counterexample :
    "ab".data ++ "cd".data = "abcd".data ∧
    getTitle ⟨some ["ab".data, "cd".data]⟩ ≠ getTitle ⟨some ["abcd".data]⟩ := by
  decide

/-- Claim C2 as amended: `getTitle` equals the trimmed concatenation of all
fragments only when the first fragment is empty or there is at most one
fragment; whenever the first fragment is non-empty, the result is that
first fragment trimmed, regardless of the remaining fragments. -/
theorem claim_C2_amended :
    (∀ frags : List (List Char), frags.head?.getD [] = [] →
      getTitle ⟨some frags⟩ = jsTrim frags.flatten) ∧
    (∀ frags : List (List Char), frags.length ≤ 1 →
      getTitle ⟨some frags⟩ = jsTrim frags.flatten) ∧
    (∀ (frags : List (List Char)) (f : List Char), frags.head? = some f →
      f ≠ [] → getTitle ⟨some frags⟩ = jsTrim f) := by
  refine ⟨?_, ?_, ?_⟩
  · intro frags h
    show jsTrim (jsOrS (jsOrOpt frags.head? []) (jsOrS frags.flatten [])) =
      jsTrim frags.flatten
    have h1 : jsOrOpt frags.head? [] = [] := by
      cases hh : frags.head? with
      | none => rfl
      | some s =>
        rw [hh] at h
        simp only [Option.getD_some] at h
        subst h
        rfl
    rw [h1]
    show jsTrim (jsOrS frags.flatten []) = jsTrim frags.flatten
    rw [jsOrS_nil_right]
  · intro frags h
    rcases frags with _ | ⟨f, _ | ⟨g, rest⟩⟩
    · decide
    · by_cases hf : f = []
      · subst hf
        decide
      · show jsTrim (jsOrS (jsOrOpt [f].head? []) (jsOrS [f].flatten [])) =
          jsTrim [f].flatten
        have h1 : jsOrOpt [f].head? [] = f := by
          simp [jsOrOpt, jsOrS, hf]
        rw [h1]
        have h2 : [f].flatten = f := by simp
        rw [h2]
        unfold jsOrS
        rw [if_neg hf]
    · simp at h
  · intro frags f hh hf
    show jsTrim (jsOrS (jsOrOpt frags.head? []) (jsOrS frags.flatten [])) =
      jsTrim f
    rw [hh]
    show jsTrim (jsOrS (jsOrS f []) (jsOrS frags.flatten [])) = jsTrim f
    rw [jsOrS_nil_right]
    unfold jsOrS
    rw [if_neg hf]

/-- Witness for the amended claim C2: an empty first fragment falls back to
the concatenation, and a non-empty first fragment wins over the rest. -/
theorem claim_C2_amended_witness :
    getTitle ⟨some [([] : List Char), "b".data]⟩ =
      jsTrim ([([] : List Char), "b".data].flatten) ∧
    getTitle ⟨some ["a".data, "b".data]⟩ = jsTrim "a".data :=
  ⟨claim_C2_amended.1 [([] : List Char), "b".data] rfl,
   claim_C2_amended.2.2 ["a".data, "b".data] "a".data rfl (by decide)⟩

/-! ## Claim C6 -/

/-- Claim C6: `parseReleasedToISO` maps "20 Jun 1988" to "1988-06-20", maps
the empty string and unparseable input such as "not a date" to absence, and
on any successful parse returns exactly the 10-character calendar
year-month-day component of the ISO timestamp, discarding the time-and-zone
tail. -/
theorem claim_C6_release_date :
    parseReleasedToISO "20 Jun 1988".data = some "1988-06-20".data ∧
    parseReleasedToISO [] = none ∧
    parseReleasedToISO "not a date".data = none ∧
    (∀ (s : List Char) (y m d : Nat), jsDateParse s = some (y, m, d) →
      parseReleasedToISO s = some (pad4 y ++ '-' :: pad2 m ++ '-' :: pad2 d) ∧
      (pad4 y ++ '-' :: pad2 m ++ '-' :: pad2 d).length = 10) := by
  refine ⟨by decide, by decide, by decide, ?_⟩
  intro s y m d h
  have hs : s ≠ [] := by
    intro hnil
    subst hnil
    rw [show jsDateParse [] = none from rfl] at h
    exact Option.noConfusion h
  refine ⟨?_, by simp [pad4, pad2]⟩
  rw [parseReleasedToISO, if_neg hs, h]
  show some ((jsToISOString (y, m, d)).take 10) =
    some (pad4 y ++ '-' :: pad2 m ++ '-' :: pad2 d)
  have assoc : jsToISOString (y, m, d) =
      (pad4 y ++ '-' :: pad2 m ++ '-' :: pad2 d) ++ "T00:00:00.000Z".data := by
    simp [jsToISOString]
  rw [assoc]
  have hdp : ((pad4 y ++ '-' :: pad2 m ++ '-' :: pad2 d) : List Char).length = 10 := by
    simp [pad4, pad2]
  rw [show (10 : Nat) =
      ((pad4 y ++ '-' :: pad2 m ++ '-' :: pad2 d) : List Char).length from
    hdp.symm, List.take_left]

/-- Witness for claim C6 at the spec's own example date. -/
theorem claim_C6_witness :
    parseReleasedToISO "20 Jun 1988".data =
      some (pad4 1988 ++ '-' :: pad2 6 ++ '-' :: pad2 20) ∧
    (pad4 1988 ++ '-' :: pad2 6 ++ '-' :: pad2 20).length = 10 :=
  claim_C6_release_date.2.2.2 "20 Jun 1988".data 1988 6 20 (by decide)






/-! ## Claim C5 -/

theorem jsOrOpt_nil (a : Option (List Char)) : jsOrOpt a [] = a.getD [] := by
  cases a
  · rfl
  · next s =>
    show jsOrS s [] = s
    exact jsOrS_nil_right s

/-- Claim C5: `fetchFromOMDb` fails with the missing-credential error when
the API key is absent, independently of the network oracle (no request is
consulted); on the provider's not-found sentinel it fails with the
provider's own non-empty error message when present and with the generic
fallback otherwise; and on success it returns exactly the six extracted
fields — each absent field defaults to the empty string and each present
field passes through unchanged — with the genre list equal to the
comma-split entries, each trimmed, empty entries discarded, in order. -/
theorem claim_C5_fetch (omdbKey : List Char) (omdbFetch : List Char → OMDbJson)
    (title : List Char) (hk : omdbKey ≠ []) :
    (∀ (f g : List Char → OMDbJson) (t : List Char),
      fetchFromOMDb [] f t = .error "OMDB_API_KEY 누락".data ∧
      fetchFromOMDb [] f t = fetchFromOMDb [] g t) ∧
    (∀ e : List Char, (omdbFetch title).response = some "False".data →
      (omdbFetch title).error = some e → e ≠ [] →
      fetchFromOMDb omdbKey omdbFetch title = .error e) ∧
    ((omdbFetch title).response = some "False".data →
      (omdbFetch title).error.getD [] = [] →
      fetchFromOMDb omdbKey omdbFetch title = .error "OMDb not found".data) ∧
    ((omdbFetch title).response ≠ some "False".data →
      fetchFromOMDb omdbKey omdbFetch title = .ok
        { director := (omdbFetch title).director.getD []
          plot := (omdbFetch title).plot.getD []
          genres := ((((omdbFetch title).genre.getD []).splitOn ',').map
            jsTrim).filter (· ≠ [])
          released := (omdbFetch title).released.getD []
          writers := (omdbFetch title).writer.getD []
          actors := (omdbFetch title).actors.getD [] }) := by
  refine ⟨fun f g t => ⟨rfl, rfl⟩, ?_, ?_, ?_⟩
  · intro e hresp herr he
    rw [fetchFromOMDb, if_neg hk, if_pos hresp, herr]
    show Except.error (jsOrS e "OMDb not found".data) = _
    rw [jsOrS, if_neg he]
  · intro hresp herr
    rw [fetchFromOMDb, if_neg hk, if_pos hresp]
    cases he : (omdbFetch title).error with
    | none => rfl
    | some s =>
      rw [he] at herr
      simp only [Option.getD_some] at herr
      subst herr
      rfl
  · intro hresp
    rw [fetchFromOMDb, if_neg hk, if_neg hresp]
    simp only [jsOrOpt_nil, splitGenres]

/-- Witness for claim C5: the missing-key failure, the provider-message
failure and the exact success-path extraction, at concrete oracles. -/
theorem claim_C5_witness :
    fetchFromOMDb [] omdbFetchOk "t".data = .error "OMDB_API_KEY 누락".data ∧
    fetchFromOMDb "key".data omdbFetchNotFound "t".data =
      .error "Movie not found!".data ∧
    fetchFromOMDb "key".data omdbFetchOk "t".data = .ok
      { director := (omdbFetchOk "t".data).director.getD []
        plot := (omdbFetchOk "t".data).plot.getD []
        genres := ((((omdbFetchOk "t".data).genre.getD []).splitOn ',').map
          jsTrim).filter (· ≠ [])
        released := (omdbFetchOk "t".data).released.getD []
        writers := (omdbFetchOk "t".data).writer.getD []
        actors := (omdbFetchOk "t".data).actors.getD [] } :=
  ⟨((claim_C5_fetch "key".data omdbFetchOk "t".data (by decide)).1
      omdbFetchOk omdbFetchOk "t".data).1,
   (claim_C5_fetch "key".data omdbFetchNotFound "t".data (by decide)).2.1
      "Movie not found!".data rfl rfl (by decide),
   (claim_C5_fetch "key".data omdbFetchOk "t".data (by decide)).2.2.2
      (by decide)⟩

/-! ## Claim C3 -/


theorem buildProps_names (data : OMDbData) (summary features : List Char)
    (iso : Option (List Char)) :
    (buildProps data summary features iso).map Prod.fst = propNames := rfl

theorem handlerCore_ok_updated
    {body : Except Unit (Option (List Char))} {header : Option (List Char)}
    {retrieve : List Char → Except (List Char) NotionPage}
    {omdbKey : List Char} {omdbFetch : List Char → OMDbJson}
    {update : List Char → List (List Char × PropValue) → Except (List Char) Unit}
    {t : List Char} {upd : List (List Char)}
    (h : handlerCore body header retrieve omdbKey omdbFetch update =
      .ok (t, upd)) :
    upd = propNames := by
  simp only [handlerCore] at h
  split at h
  · exact Except.noConfusion h
  · split at h
    · exact Except.noConfusion h
    · split at h
      · exact Except.noConfusion h
      · split at h
        · exact Except.noConfusion h
        · split at h
          · exact Except.noConfusion h
          · injection h with h'
            injection h' with h1 h2
            rw [← h2]
            exact buildProps_names ..

/-- Claim C3 counterexample: a successful request whose release date is
unparsable still submits — and echoes in `updated` — all 7 property names,
including the date property 개봉일 (whose value is the `undefined`
no-change instruction) and the status property 상태; the set is never 5 or
6 names. -/
theorem claim_C3_counterexample :
    parseReleasedToISO "xx".data = none ∧
    (handler (.ok (some "abc123".data)) none retrieveOk "key".data omdbFetchOk
      updateOk).status = 200 ∧
    (handler (.ok (some "abc123".data)) none retrieveOk "key".data omdbFetchOk
      updateOk).updated = some propNames ∧
    propNames.length = 7 ∧
    "개봉일".data ∈ propNames ∧ "상태".data ∈ propNames := by
  refine ⟨by decide, by decide, by decide, by decide, by decide, by decide⟩

/-- Claim C3 as amended: the property map submitted to the update call and
echoed as `updated` in every 200 response is the fixed list of exactly 7
property names — the status property is always included (its guarded
assignment cannot throw) and the date property's name is always included,
its value being the `undefined` no-change instruction when the release date
is unparsable. -/
theorem claim_C3_amended
    (body : Except Unit (Option (List Char))) (header : Option (List Char))
    (retrieve : List Char → Except (List Char) NotionPage)
    (omdbKey : List Char) (omdbFetch : List Char → OMDbJson)
    (update : List Char → List (List Char × PropValue) → Except (List Char) Unit)
    (h200 : (handler body header retrieve omdbKey omdbFetch update).status = 200) :
    (handler body header retrieve omdbKey omdbFetch update).updated =
      some propNames ∧
    propNames.length = 7 ∧
    (∀ (data : OMDbData) (summary features : List Char),
      (buildProps data summary features none).lookup "개봉일".data =
        some PropValue.undefinedVal) := by
  refine ⟨?_, by decide, fun data summary features => rfl⟩
  rw [handler] at h200 ⊢
  cases hc : handlerCore body header retrieve omdbKey omdbFetch update with
  | error e =>
    rw [hc] at h200
    simp at h200
  | ok p =>
    obtain ⟨t, upd⟩ := p
    have hupd := handlerCore_ok_updated hc
    simp [hupd]

/-- Witness for the amended claim C3, at an end-to-end successful run. -/
theorem claim_C3_amended_witness :
    (handler (.ok (some "abc123".data)) none retrieveOk "key".data omdbFetchOk
      updateOk).updated = some propNames ∧ propNames.length = 7 :=
  ⟨(claim_C3_amended (.ok (some "abc123".data)) none retrieveOk "key".data
      omdbFetchOk updateOk (by decide)).1,
   (claim_C3_amended (.ok (some "abc123".data)) none retrieveOk "key".data
      omdbFetchOk updateOk (by decide)).2.1⟩

/-! ## Claim C4 -/

theorem jsOrOpt_eq_nil_iff (a : Option (List Char)) (b : List Char) :
    jsOrOpt a b = [] ↔ a.getD [] = [] ∧ b = [] := by
  cases a with
  | none => simp [jsOrOpt]
  | some s =>
    show jsOrS s b = [] ↔ _
    rw [jsOrS]
    split
    · next h => simp [h]
    · next h => simp [h]

theorem handlerCore_ne_missing
    {body : Except Unit (Option (List Char))} {header : Option (List Char)}
    {retrieve : List Char → Except (List Char) NotionPage}
    {omdbKey : List Char} {omdbFetch : List Char → OMDbJson}
    {update : List Char → List (List Char × PropValue) → Except (List Char) Unit}
    (hp : jsOrOpt (match body with | .error _ => none | .ok f => f)
        (jsTrim (header.getD [])) ≠ [])
    (hr : ∀ s, retrieve s ≠ .error msgMissingPageId)
    (hf : ∀ t, fetchFromOMDb omdbKey omdbFetch t ≠ .error msgMissingPageId)
    (hu : ∀ p pr, update p pr ≠ .error msgMissingPageId) :
    handlerCore body header retrieve omdbKey omdbFetch update ≠
      .error msgMissingPageId := by
  simp only [handlerCore]
  rw [if_neg hp]
  split
  · next e heq =>
    intro hcontra
    injection hcontra with h'
    exact hr _ (h' ▸ heq)
  · next page heq =>
    split
    · intro hcontra
      injection hcontra with h'
      exact absurd h' (by decide)
    · split
      · next e heq2 =>
        intro hcontra
        injection hcontra with h'
        exact hf _ (h' ▸ heq2)
      · next data heq2 =>
        split
        · next e heq3 =>
          intro hcontra
          injection hcontra with h'
          exact hu _ _ (h' ▸ heq3)
        · exact fun hcontra => Except.noConfusion hcontra

/-- Claim C4: an unparseable JSON body is treated exactly as an empty
object; and — provided the three outbound calls never themselves fail with
the literal missing-identifier message — the handler produces the 500 /
`ok:false` / missing-identifier response precisely when the body field is
empty or absent and the trimmed header is empty or absent. -/
theorem claim_C4_identifier_resolution
    (bodyField : Option (List Char)) (header : Option (List Char))
    (retrieve : List Char → Except (List Char) NotionPage)
    (omdbKey : List Char) (omdbFetch : List Char → OMDbJson)
    (update : List Char → List (List Char × PropValue) → Except (List Char) Unit)
    (hr : ∀ s, retrieve s ≠ .error msgMissingPageId)
    (hf : ∀ t, fetchFromOMDb omdbKey omdbFetch t ≠ .error msgMissingPageId)
    (hu : ∀ p pr, update p pr ≠ .error msgMissingPageId) :
    handler (.error ()) header retrieve omdbKey omdbFetch update =
      handler (.ok none) header retrieve omdbKey omdbFetch update ∧
    ((handler (.ok bodyField) header retrieve omdbKey omdbFetch update).status
        = 500 ∧
     (handler (.ok bodyField) header retrieve omdbKey omdbFetch update).ok
        = false ∧
     (handler (.ok bodyField) header retrieve omdbKey omdbFetch update).error
        = some msgMissingPageId ↔
     bodyField.getD [] = [] ∧ jsTrim (header.getD []) = []) := by
  refine ⟨rfl, ?_, ?_⟩
  · rintro ⟨h5, hok, herr⟩
    rw [handler] at herr
    cases hc : handlerCore (.ok bodyField) header retrieve omdbKey omdbFetch
        update with
    | ok p =>
      rw [hc] at herr
      simp at herr
    | error e =>
      rw [hc] at herr
      simp only [Option.some.injEq] at herr
      subst herr
      by_contra hnot
      have hp : jsOrOpt bodyField (jsTrim (header.getD [])) ≠ [] := by
        rw [Ne, jsOrOpt_eq_nil_iff]
        exact hnot
      exact handlerCore_ne_missing hp hr hf hu hc
  · rintro ⟨hb, hh⟩
    have hp : jsOrOpt bodyField (jsTrim (header.getD [])) = [] :=
      (jsOrOpt_eq_nil_iff bodyField _).mpr ⟨hb, hh⟩
    have hc : handlerCore (.ok bodyField) header retrieve omdbKey omdbFetch
        update = .error msgMissingPageId := by
      simp only [handlerCore]
      rw [if_pos hp]
    rw [handler, hc]
    exact ⟨rfl, rfl, rfl⟩

/-- Witness for claim C4: with both identifier sources absent the handler
reports the missing-identifier 500, and an unparseable body behaves exactly
as an empty object. -/
theorem claim_C4_witness :
    (handler (.ok none) none retrieveOk "key".data omdbFetchOk updateOk).error
      = some msgMissingPageId ∧
    handler (.error ()) (some " pid7 ".data) retrieveOk "key".data omdbFetchOk
        updateOk =
      handler (.ok none) (some " pid7 ".data) retrieveOk "key".data omdbFetchOk
        updateOk := by
  have hr0 : ∀ s, retrieveOk s ≠ .error msgMissingPageId := by
    intro s h
    simp [retrieveOk] at h
  have hf0 : ∀ t, fetchFromOMDb "key".data omdbFetchOk t ≠
      .error msgMissingPageId := by
    intro t h
    exact Except.noConfusion h
  have hu0 : ∀ p pr, updateOk p pr ≠ .error msgMissingPageId := by
    intro p pr h
    simp [updateOk] at h
  constructor
  · exact ((claim_C4_identifier_resolution none none retrieveOk "key".data
      omdbFetchOk updateOk hr0 hf0 hu0).2.mpr ⟨rfl, rfl⟩).2.2
  · exact (claim_C4_identifier_resolution none (some " pid7 ".data) retrieveOk
      "key".data omdbFetchOk updateOk hr0 hf0 hu0).1

end NotionMovie
